import Mathlib

/-!
Verification of the scan-match-publish pipeline of
`src/screen_text_highlighterV4.py` against its specification.

The Python source is shallowly embedded: pure methods become Lean
functions over `String` (modelled as its list of characters where
needed); external library calls (`re.search`, `mss` capture,
`pytesseract`) are parameters of the embedded functions; `try/except`
becomes `Except`/`Option`; Python `int()` on a nonnegative float ratio
is truncating rational division.  The Unicode-dependent pieces of
Python's `str.lower`, `str.strip` and `\w` are modelled on their ASCII
fragment, which is what every concrete evaluation below uses.
-/

namespace ScreenTextHighlighter

/-! ## Python string primitives -/

/-- The characters Python's `str.strip()` removes (ASCII whitespace). -/
def pyIsSpace (c : Char) : Bool :=
  c == ' ' || c == '\t' || c == '\n' || c == '\x0d' || c == '\x0b' || c == '\x0c'

/-- Drop trailing whitespace. -/
def dropTrailWs (l : List Char) : List Char :=
  (l.reverse.dropWhile pyIsSpace).reverse

/-- Python `str.strip()`: drop whitespace from both ends. -/
def pyStrip (s : String) : String :=
  String.mk (dropTrailWs (s.data.dropWhile pyIsSpace))

/-- Python `str.lower()` on the ASCII fragment. -/
def pyLower (s : String) : String :=
  String.mk (s.data.map Char.toLower)

/-- `needle` occurs at the start of `hay`. -/
def startsWithSub : List Char → List Char → Bool
  | [], _ => true
  | _ :: _, [] => false
  | a :: as, b :: bs => a == b && startsWithSub as bs

/-- Python's `needle in hay` substring test. -/
def containsSub (needle : List Char) : List Char → Bool
  | [] => needle.isEmpty
  | c :: t => startsWithSub needle (c :: t) || containsSub needle t

/-- A character matched by the regex class `\w` (ASCII fragment). -/
def isWordChar (c : Char) : Bool := c.isAlphanum || c == '_'

/-- Maximal runs of word characters, accumulator-style. -/
def wordsAux : List Char → List Char → List (List Char)
  | [], cur => if cur.isEmpty then [] else [cur.reverse]
  | c :: rest, cur =>
    if isWordChar c then wordsAux rest (c :: cur)
    else if cur.isEmpty then wordsAux rest []
    else cur.reverse :: wordsAux rest []

/-- Python `re.findall(r'\b\w+\b', s)`: the maximal word-character runs
of `s`, in order. -/
def pyWords (s : String) : List String :=
  (wordsAux s.data []).map String.mk

/-! ## The search model (`AdvancedSearchModel`, lines 74-179) -/

/-- The mutable fields of `AdvancedSearchModel.__init__` (lines 77-83).
`logic` is the Python string (`"OR"` / `"AND"`). -/
structure AdvancedSearchModel where
  keywords : List String
  logic : String
  case_sensitive : Bool
  partial_match : Bool
  use_regex : Bool
  whole_word : Bool

/-- `add_keyword` (lines 85-89) on the keyword list. -/
def add_keyword (keywords : List String) (keyword : String) : List String :=
  let keyword := pyStrip keyword
  if keyword ≠ "" ∧ keyword ∉ keywords then keywords ++ [keyword] else keywords

/-- `remove_keyword` (lines 91-94): Python `list.remove` drops the first
occurrence, guarded by a membership test. -/
def remove_keyword (keywords : List String) (keyword : String) : List String :=
  if keyword ∈ keywords then keywords.erase keyword else keywords

/-- `clear_keywords` (lines 96-98). -/
def clear_keywords (_keywords : List String) : List String := []

/-- The per-keyword literal match computed identically at lines 124-138
(`match_text`) and lines 157-169 (`get_match_details`). -/
def keywordLiteralMatch (m : AdvancedSearchModel) (text keyword : String) : Bool :=
  let text_to_match := if m.case_sensitive then text else pyLower text
  let keyword_to_match := if m.case_sensitive then keyword else pyLower keyword
  if m.partial_match then
    if m.whole_word then
      (pyWords text_to_match).any fun word =>
        keyword_to_match == (if m.case_sensitive then word else pyLower word)
    else containsSub keyword_to_match.data text_to_match.data
  else keyword_to_match == text_to_match

/-- One call of Python `re.search(pattern, text, flags)` with the flags
determined by `case_sensitive`: `none` models `re.error` (a malformed
pattern), `some b` a completed search.  The `re` engine is external to
the file, so it is a parameter of the embedding. -/
def RegexOracle : Type := String → String → Bool → Option Bool

/-- The `for pattern in self.keywords` loop of the regex branch
(lines 110-117), inside one `try`: a `re.error` anywhere abandons the
whole loop (`none`), a decided result returns early, and falling off the
end returns `self.logic == "AND"` (line 117). -/
def regexPassLoop (oracle : RegexOracle) (m : AdvancedSearchModel)
    (text : String) : List String → Option Bool
  | [] => some (m.logic = "AND")
  | pattern :: rest =>
    match oracle pattern text m.case_sensitive with
    | none => none
    | some true =>
      if m.logic = "OR" then some true else regexPassLoop oracle m text rest
    | some false =>
      if m.logic = "AND" then some false else regexPassLoop oracle m text rest

/-- The literal branch of `match_text` (lines 122-144): per-keyword
booleans combined by `any` for `"OR"`, `all` otherwise. -/
def literalCombine (m : AdvancedSearchModel) (text : String) : Bool :=
  let verdicts := m.keywords.map fun keyword => keywordLiteralMatch m text keyword
  if m.logic = "OR" then verdicts.any id else verdicts.all id

/-- `AdvancedSearchModel.match_text` (lines 100-144).  The `except
re.error: pass` at lines 118-120 falls through to the literal branch. -/
def match_text (oracle : RegexOracle) (m : AdvancedSearchModel)
    (text : String) : Bool :=
  if m.keywords = [] ∨ text = "" then false
  else if m.use_regex then
    match regexPassLoop oracle m text m.keywords with
    | some b => b
    | none => literalCombine m text
  else literalCombine m text

/-- The dictionary built by `get_match_details`; the `"text"` key is
absent from the early return at line 149, hence an `Option`. -/
structure MatchDetails where
  matched : Bool
  keywords : List String
  text : Option String
  deriving DecidableEq

/-- One iteration of the `for keyword in self.keywords` loop of
`get_match_details` (lines 157-173).  Note line 173: for `"OR"` logic a
match sets `matched := True`; otherwise it re-reads the present
`"matched"` entry (`details.get("matched", True)`), leaving it as it
was. -/
def detailsStep (m : AdvancedSearchModel) (text : String)
    (d : MatchDetails) (keyword : String) : MatchDetails :=
  if keywordLiteralMatch m text keyword then
    { d with
      keywords := d.keywords ++ [keyword]
      matched := if m.logic = "OR" then true else d.matched }
  else d

/-- `AdvancedSearchModel.get_match_details` (lines 146-179). -/
def get_match_details (m : AdvancedSearchModel) (text : String) : MatchDetails :=
  if m.keywords = [] ∨ text = "" then ⟨false, [], none⟩
  else
    let d := m.keywords.foldl (detailsStep m text) ⟨false, [], some text⟩
    if m.logic = "AND" ∧ d.keywords.length < m.keywords.length then
      { d with matched := false }
    else d

/-! ## Monitors, regions, selection (`get_monitor_info`,
`RegionSelectionWindow`, lines 312-369 and 1359-1373) -/

/-- One entry of `monitor_info` (lines 1364-1372); `right` and `bottom`
are derived, see `monitorRight` / `monitorBottom`. -/
structure Monitor where
  left : Int
  top : Int
  width : Int
  height : Int
  deriving DecidableEq

/-- `monitor['right']` as stored by `get_monitor_info` (line 1370). -/
def monitorRight (mon : Monitor) : Int := mon.left + mon.width

/-- `monitor['bottom']` as stored by `get_monitor_info` (line 1371). -/
def monitorBottom (mon : Monitor) : Int := mon.top + mon.height

/-- `RegionSelectionWindow.get_monitor_at_point` (lines 312-321): the first
registry entry whose inclusive bounds contain the point; `(wx, wy)` is the
selection window's own origin (`self.x()`, `self.y()`).  The registry is an
association list in the dictionary's insertion order. -/
def get_monitor_at_point (info : List (Nat × Monitor)) (wx wy x y : Int) :
    Option Nat :=
  let global_x := x + wx
  let global_y := y + wy
  (info.find? fun p =>
    decide (p.2.left ≤ global_x) && decide (global_x ≤ monitorRight p.2) &&
    decide (p.2.top ≤ global_y) && decide (global_y ≤ monitorBottom p.2)).map
    Prod.fst

/-- The dictionary lookup `monitor_info[monitor_idx]` (line 361). -/
def findMonitor (info : List (Nat × Monitor)) (idx : Nat) : Option Monitor :=
  (info.find? fun p => p.1 == idx).map Prod.snd

/-- `RegionSelectionWindow.mouseReleaseEvent` (lines 337-369): from the two
drag endpoints to the emitted `((relative_x, relative_y, w, h),
monitor_idx)` pair, or `none` when the selection is rejected and nothing is
emitted.  `w.tdiv 2` is Python's `w // 2` (`w ≥ 0` here).  Python's `if not
monitor_idx` (line 356) also rejects a monitor index of 0; the lookup at
line 361 cannot fail for an index `get_monitor_at_point` returned, so its
`none` branch is unreachable. -/
def selectRegion (info : List (Nat × Monitor)) (wx wy sx sy ex ey : Int) :
    Option ((Int × Int × Int × Int) × Nat) :=
  let x := min sx ex
  let y := min sy ey
  let w := |sx - ex|
  let h := |sy - ey|
  if w < 50 ∨ h < 30 then none
  else
    let global_x := x + wx
    let global_y := y + wy
    match get_monitor_at_point info wx wy (x + w.tdiv 2) (y + h.tdiv 2) with
    | none => none
    | some monitor_idx =>
      if monitor_idx = 0 then none
      else
        match findMonitor info monitor_idx with
        | none => none
        | some monitor =>
          some ((global_x - monitor.left, global_y - monitor.top, w, h),
                monitor_idx)

/-! ## The scan cycle (`ocr_worker`, lines 1376-1555) and the overlay's
coordinate mapping (`OverlayWindow.paintEvent`, lines 470-489) -/

/-- A monitor-relative capture rectangle, one value of `selected_regions`. -/
structure Region where
  x : Int
  y : Int
  w : Int
  h : Int
  deriving DecidableEq

/-- One recognized fragment: `data["text"][i]`, `data["left"][i]`,
`data["top"][i]`, `data["width"][i]`, `data["height"][i]` of the
`pytesseract.image_to_data` output. -/
structure Fragment where
  text : String
  left : Int
  top : Int
  width : Int
  height : Int
  deriving DecidableEq

/-- One entry of the cycle-local `boxes` list (line 1503): the tuple
`(x, y, w, h, monitor_idx, keyword_idx)`. -/
structure Box where
  x : Int
  y : Int
  w : Int
  h : Int
  monitor_idx : Nat
  keyword_idx : Nat
  deriving DecidableEq

/-- Python `int(v / scale_factor)` at lines 1488-1491, where `scale_factor =
scale_spin.value() / 100.0` (line 1433): with the spin value `scalePercent`,
this is the exact rational `v * 100 / scalePercent` truncated toward zero
(`Int.tdiv`), which is `int()` of the exact quotient. -/
def pyDivByScale (v : Int) (scalePercent : Nat) : Int :=
  Int.tdiv (v * 100) scalePercent

/-- Lines 1476-1515: the processing of one recognized fragment, yielding the
box appended to the cycle-local list, or `none` when the fragment is
skipped (blank after stripping, no match, or `details['matched']` false). -/
def fragmentBox (oracle : RegexOracle) (m : AdvancedSearchModel)
    (scalePercent : Nat) (region : Region) (monitor_idx : Nat)
    (frag : Fragment) : Option Box :=
  let text := pyStrip frag.text
  if text = "" then none
  else if match_text oracle m text then
    let details := get_match_details m text
    if details.matched then
      let x := pyDivByScale frag.left scalePercent + region.x
      let y := pyDivByScale frag.top scalePercent + region.y
      let w := pyDivByScale frag.width scalePercent
      let h := pyDivByScale frag.height scalePercent
      let keyword_indices := details.keywords.filterMap fun keyword =>
        if keyword ∈ m.keywords then some (m.keywords.indexOf keyword)
        else none
      some ⟨x, y, w, h, monitor_idx, keyword_indices.headD 0⟩
    else none
  else none

/-- The external capture + preprocessing + recognition step for one region
(the body of the `try` at lines 1419-1467): either the recognized fragments
or the caught exception rendered as a message. -/
def CaptureRecognize : Type := Nat → Region → Except String (List Fragment)

/-- One entry of the `for monitor_idx, region in selected_regions.items()`
loop (lines 1395-1532): the boxes this region contributes to the cycle's
local list.  A falsy region (line 1396), an out-of-range monitor index
(line 1400, `monitor_idx - 1 >= len(monitors)` for the 1-based indexes of
`get_monitor_info`), a caught per-region exception (lines 1531-1532) and an
empty keyword list (line 1473) each contribute nothing. -/
def processRegion (oracle : RegexOracle) (capture : CaptureRecognize)
    (m : AdvancedSearchModel) (scalePercent : Nat) (monitorCount : Nat)
    (entry : Nat × Option Region) : List Box :=
  match entry.2 with
  | none => []
  | some region =>
    if monitorCount < entry.1 then []
    else
      match capture entry.1 region with
      | .error _ => []
      | .ok frags =>
        if m.keywords = [] then []
        else frags.filterMap (fragmentBox oracle m scalePercent region entry.1)

/-- The per-cycle region loop (lines 1390-1532): fold over the snapshot of
`selected_regions`, appending each region's contribution to the cycle-local
`boxes` list. -/
def runCycle (oracle : RegexOracle) (capture : CaptureRecognize)
    (m : AdvancedSearchModel) (scalePercent : Nat) (monitorCount : Nat)
    (selected_regions : List (Nat × Option Region)) : List Box :=
  selected_regions.foldl
    (fun boxes entry =>
      boxes ++ processRegion oracle capture m scalePercent monitorCount entry)
    []

/-- An operation on the shared `matched_boxes` list: wholesale replacement
(`matched_boxes = boxes`, line 1536), or an element-level write
(`matched_boxes[i] = b`), an operation the worker never performs. -/
inductive SharedOp where
  | replaceAll : List Box → SharedOp
  | setElem : Nat → Box → SharedOp
  deriving DecidableEq

/-- One body of the worker's `while True` loop with scanning active and no
cycle-level exception (lines 1389-1543): the cycle assembles `boxes` in a
local list, then under the lock performs the single shared-state operation
`matched_boxes = boxes` (lines 1534-1537).  The function maps the previous
shared list to the new one, together with the shared-state operations the
cycle performed. -/
def workerCycle (oracle : RegexOracle) (capture : CaptureRecognize)
    (m : AdvancedSearchModel) (scalePercent : Nat) (monitorCount : Nat)
    (selected_regions : List (Nat × Option Region))
    (_matched_boxes : List Box) : List Box × List SharedOp :=
  let boxes := runCycle oracle capture m scalePercent monitorCount
    selected_regions
  (boxes, [SharedOp.replaceAll boxes])

/-- `OverlayWindow.paintEvent` line 477: the global x of a published box. -/
def overlayGlobalX (mon : Monitor) (b : Box) : Int := b.x + mon.left

/-- `OverlayWindow.paintEvent` line 478: the global y of a published box. -/
def overlayGlobalY (mon : Monitor) (b : Box) : Int := b.y + mon.top

/-! ## Keyword-list operation sequences (for the C8 invariant) -/

/-- One call through the keyword-editing surface: `add_keyword`,
`remove_keyword` or `clear_keywords`. -/
inductive KeywordOp where
  | add : String → KeywordOp
  | remove : String → KeywordOp
  | clear : KeywordOp

/-- Apply one editing call to the keyword list. -/
def applyKeywordOp (keywords : List String) : KeywordOp → List String
  | .add s => add_keyword keywords s
  | .remove s => remove_keyword keywords s
  | .clear => clear_keywords keywords

/-- The keyword list after a sequence of editing calls, starting from the
empty list of `__init__` (line 78). -/
def applyKeywordOps (ops : List KeywordOp) : List String :=
  ops.foldl applyKeywordOp []

/-! ## Predicates written from the claims' own words (for the corrected
claims, to be compared with the embedded code) -/

/-- The per-keyword rule exactly as claim C1 words it: substring containment
when `partial_match` is set, else exact equality, under the configured case
sensitivity — with no `whole_word` constraint. -/
def c1ClaimKeywordMatch (m : AdvancedSearchModel) (text keyword : String) :
    Bool :=
  let t := if m.case_sensitive then text else pyLower text
  let k := if m.case_sensitive then keyword else pyLower keyword
  if m.partial_match then containsSub k.data t.data else k == t

/-- Claim C1's predicted verdict: its per-keyword rule combined with the
configured logic (OR: at least one, AND: all). -/
def c1ClaimVerdict (m : AdvancedSearchModel) (text : String) : Bool :=
  if m.logic = "OR" then m.keywords.any (c1ClaimKeywordMatch m text)
  else m.keywords.all (c1ClaimKeywordMatch m text)

/-- Claim C2's predicted regex-mode behaviour: every pattern keeps its own
regex verdict; only a malformed pattern falls back, individually, to the
literal rule for that one keyword. -/
def c2ClaimVerdict (oracle : RegexOracle) (m : AdvancedSearchModel)
    (text : String) : Bool :=
  let verdicts := m.keywords.map fun pattern =>
    match oracle pattern text m.case_sensitive with
    | some b => b
    | none => keywordLiteralMatch m text pattern
  if m.logic = "OR" then verdicts.any id else verdicts.all id

/-! ## Concrete oracles and sample data for the closed evaluations -/

/-- A regex oracle for runs whose configuration never reaches the regex
branch (its value is then irrelevant to `match_text`). -/
def noRe : RegexOracle := fun _ _ _ => some false

/-- A concrete instance of the `re.search` oracle, following Python's
documented behaviour on the pattern shapes used below: `"("` raises
`re.error` (missing closing parenthesis); `"a+b"` — one or more `a`, then
`b` — finds a match iff the case-folded text contains `"ab"`; any other
pattern used here consists of plain word characters and finds a match iff
it occurs as a substring. -/
def sampleRe : RegexOracle := fun pattern text case_sensitive =>
  let t := if case_sensitive then text else pyLower text
  if pattern = "(" then none
  else if pattern = "a+b" then some (containsSub "ab".data t.data)
  else
    some (containsSub
      (if case_sensitive then pattern else pyLower pattern).data t.data)

/-- keywords `["cat"]`, OR, case-insensitive, partial and whole-word on,
regex off. -/
def cfgWholeWord : AdvancedSearchModel := ⟨["cat"], "OR", false, true, false, true⟩

/-- As `cfgWholeWord` but with `partial_match` off. -/
def cfgWholeWordOnly : AdvancedSearchModel := ⟨["cat"], "OR", false, false, false, true⟩

/-- Regex mode, OR logic: a malformed pattern first, a valid one second. -/
def cfgBadThenGood : AdvancedSearchModel := ⟨["(", "a+b"], "OR", false, true, true, false⟩

/-- Regex mode, OR logic, a single valid pattern. -/
def cfgRegexOr : AdvancedSearchModel := ⟨["a+b"], "OR", false, true, true, false⟩

/-- Three literal keywords under OR logic with regex mode switched on. -/
def cfgABC : AdvancedSearchModel := ⟨["a", "b", "c"], "OR", false, true, true, false⟩

/-- The two-keyword OR configuration of the spec's end-to-end scenario. -/
def cfgFruit : AdvancedSearchModel := ⟨["apple", "banana"], "OR", false, true, false, false⟩

/-- A single-keyword literal OR configuration. -/
def cfgApple : AdvancedSearchModel := ⟨["apple"], "OR", false, true, false, false⟩

/-- A configuration with an empty keyword list. -/
def cfgEmpty : AdvancedSearchModel := ⟨[], "AND", false, true, false, false⟩

/-- One recognized fragment with local offset (10, 10). -/
def fragApple : Fragment := ⟨"apple", 10, 10, 30, 12⟩

/-- The region of the spec's coordinate round-trip, offset (100, 50). -/
def regDemo : Region := ⟨100, 50, 200, 100⟩

/-- A capture step that fails deterministically on monitor 1 and recognizes
`fragApple` elsewhere. -/
def capErr : CaptureRecognize := fun idx _ =>
  if idx = 1 then Except.error "CaptureFailure" else Except.ok [fragApple]

/-- A registry with one 1920x1080 monitor at the origin. -/
def infoDemo : List (Nat × Monitor) := [(1, ⟨0, 0, 1920, 1080⟩)]

/-- The invariant claim C8 states for the keyword list. -/
def KeywordInv (l : List String) : Prop :=
  l.Nodup ∧ ∀ k ∈ l, pyStrip k ≠ ""

/-! ## Auxiliary lemmas -/

theorem any_map_id {α : Type} (l : List α) (f : α → Bool) :
    (l.map f).any id = l.any f := by
  induction l with
  | nil => rfl
  | cons c t ih => simp [List.any, ih]

theorem all_map_id {α : Type} (l : List α) (f : α → Bool) :
    (l.map f).all id = l.all f := by
  induction l with
  | nil => rfl
  | cons c t ih => simp [List.all, ih]

theorem dropWhile_dropWhile {α : Type} (p : α → Bool) (l : List α) :
    (l.dropWhile p).dropWhile p = l.dropWhile p := by
  induction l with
  | nil => rfl
  | cons c t ih =>
    by_cases h : p c = true
    · simp [List.dropWhile, h, ih]
    · simp at h
      simp [List.dropWhile, h]

theorem length_dropWhile_le' {α : Type} (p : α → Bool) (l : List α) :
    (l.dropWhile p).length ≤ l.length := by
  induction l with
  | nil => exact Nat.le_refl 0
  | cons c t ih =>
    by_cases h : p c = true
    · simp only [List.dropWhile, h]
      exact Nat.le_succ_of_le ih
    · simp at h
      simp [List.dropWhile, h]

theorem dropWhile_cons_head_false {α : Type} (p : α → Bool) (c : α)
    (t : List α) (h : (c :: t).dropWhile p = c :: t) : p c = false := by
  by_contra hc
  have hc' : p c = true := by
    cases hpc : p c with
    | false => exact absurd hpc hc
    | true => rfl
  have h2 : (c :: t).dropWhile p = t.dropWhile p := by
    simp [List.dropWhile, hc']
  have h3 : (t.dropWhile p).length ≤ t.length := length_dropWhile_le' p t
  rw [h2] at h
  have h4 : (t.dropWhile p).length = t.length + 1 := by rw [h]; rfl
  omega

theorem dropTrailWs_idem (l : List Char) :
    dropTrailWs (dropTrailWs l) = dropTrailWs l := by
  simp [dropTrailWs, dropWhile_dropWhile]

theorem dropTrailWs_append_rest (l : List Char) :
    ∃ j, l = dropTrailWs l ++ j := by
  refine ⟨(l.reverse.takeWhile pyIsSpace).reverse, ?_⟩
  have h := List.takeWhile_append_dropWhile pyIsSpace l.reverse
  calc l = l.reverse.reverse := (List.reverse_reverse l).symm
    _ = (l.reverse.takeWhile pyIsSpace ++ l.reverse.dropWhile pyIsSpace).reverse := by
        rw [h]
    _ = dropTrailWs l ++ (l.reverse.takeWhile pyIsSpace).reverse := by
        rw [List.reverse_append]; rfl

theorem dropWhile_dropTrailWs (a : List Char)
    (h : a.dropWhile pyIsSpace = a) :
    (dropTrailWs a).dropWhile pyIsSpace = dropTrailWs a := by
  obtain ⟨j, hj⟩ := dropTrailWs_append_rest a
  cases hdt : dropTrailWs a with
  | nil => rfl
  | cons c t =>
    have ha : a = c :: (t ++ j) := by rw [hj, hdt]; rfl
    have hc : pyIsSpace c = false := by
      apply dropWhile_cons_head_false pyIsSpace c (t ++ j)
      rw [← ha]
      exact h
    simp [List.dropWhile, hc]

theorem pyStrip_idem (s : String) : pyStrip (pyStrip s) = pyStrip s := by
  show String.mk (dropTrailWs (((dropTrailWs
      (s.data.dropWhile pyIsSpace))).dropWhile pyIsSpace)) = _
  rw [dropWhile_dropTrailWs _ (dropWhile_dropWhile pyIsSpace s.data),
    dropTrailWs_idem]
  rfl

theorem foldl_append_boxes {β : Type} (f : β → List Box) :
    ∀ (l : List β) (init : List Box),
      l.foldl (fun bs e => bs ++ f e) init = init ++ (l.map f).flatten := by
  intro l
  induction l with
  | nil => intro init; simp
  | cons c t ih =>
    intro init
    simp only [List.foldl, List.map, List.flatten]
    rw [ih, List.append_assoc]

theorem runCycle_eq_flatten (oracle : RegexOracle) (capture : CaptureRecognize)
    (m : AdvancedSearchModel) (scalePercent : Nat) (monitorCount : Nat)
    (regions : List (Nat × Option Region)) :
    runCycle oracle capture m scalePercent monitorCount regions =
      (regions.map
        (processRegion oracle capture m scalePercent monitorCount)).flatten := by
  rw [runCycle, foldl_append_boxes]
  rfl

theorem findMonitor_of_found (info : List (Nat × Monitor)) (idx : Nat)
    (wx wy x y : Int)
    (h : get_monitor_at_point info wx wy x y = some idx) :
    ∃ mon, findMonitor info idx = some mon := by
  simp only [get_monitor_at_point, Option.map_eq_some'] at h
  obtain ⟨p, hp, hfst⟩ := h
  have hmem : p ∈ info := List.mem_of_find?_eq_some hp
  have : (info.find? fun q => q.1 == idx).isSome := by
    rw [List.find?_isSome]
    exact ⟨p, hmem, by simp [hfst]⟩
  obtain ⟨q, hq⟩ := Option.isSome_iff_exists.mp this
  exact ⟨q.2, by simp [findMonitor, hq]⟩

theorem foldl_detailsStep_or (m : AdvancedSearchModel) (text : String)
    (hor : m.logic = "OR") :
    ∀ (l : List String) (d : MatchDetails),
      l.foldl (detailsStep m text) d =
        ⟨d.matched || l.any (fun k => keywordLiteralMatch m text k),
         d.keywords ++ l.filter (fun k => keywordLiteralMatch m text k),
         d.text⟩ := by
  intro l
  induction l with
  | nil => intro d; simp
  | cons c t ih =>
    intro d
    rw [List.foldl_cons, ih]
    by_cases hc : keywordLiteralMatch m text c = true
    · simp [detailsStep, hc, hor, List.filter]
    · simp at hc
      simp [detailsStep, hc, List.filter]

theorem regexPassLoop_reaches_none (oracle : RegexOracle)
    (m : AdvancedSearchModel) (text : String) (post : List String)
    (bad : String) (hbad : oracle bad text m.case_sensitive = none) :
    ∀ pre : List String,
      (∀ p ∈ pre, ∃ b, oracle p text m.case_sensitive = some b ∧
          (m.logic = "OR" → b = false) ∧ (m.logic = "AND" → b = true)) →
      regexPassLoop oracle m text (pre ++ bad :: post) = none := by
  intro pre
  induction pre with
  | nil =>
    intro _
    simp only [List.nil_append, regexPassLoop, hbad]
  | cons p t ih =>
    intro hpre
    obtain ⟨b, hb, hbOR, hbAND⟩ := hpre p (List.mem_cons_self p t)
    have ht : ∀ q ∈ t, ∃ b, oracle q text m.case_sensitive = some b ∧
        (m.logic = "OR" → b = false) ∧ (m.logic = "AND" → b = true) :=
      fun q hq => hpre q (List.mem_cons_of_mem p hq)
    have hrest := ih ht
    simp only [List.cons_append, regexPassLoop, hb]
    cases b with
    | true =>
      have hO : ¬ m.logic = "OR" := fun h => by simpa using hbOR h
      simp [hO, hrest]
    | false =>
      have hA : ¬ m.logic = "AND" := fun h => by simpa using hbAND h
      simp [hA, hrest]

theorem keywordInv_step (l : List String) (op : KeywordOp)
    (h : KeywordInv l) : KeywordInv (applyKeywordOp l op) := by
  obtain ⟨hnd, hne⟩ := h
  cases op with
  | add s =>
    show KeywordInv (add_keyword l s)
    rw [add_keyword]
    by_cases hg : pyStrip s ≠ "" ∧ pyStrip s ∉ l
    · rw [if_pos hg]
      constructor
      · simp [List.nodup_append, hnd, hg.2]
      · intro k hk
        rcases List.mem_append.mp hk with hk | hk
        · exact hne k hk
        · simp at hk
          rw [hk, pyStrip_idem]
          exact hg.1
    · rw [if_neg hg]
      exact ⟨hnd, hne⟩
  | remove s =>
    show KeywordInv (remove_keyword l s)
    rw [remove_keyword]
    by_cases hm : s ∈ l
    · rw [if_pos hm]
      exact ⟨hnd.erase s, fun k hk => hne k (List.mem_of_mem_erase hk)⟩
    · rw [if_neg hm]
      exact ⟨hnd, hne⟩
  | clear =>
    exact ⟨List.nodup_nil, by simp [applyKeywordOp, clear_keywords]⟩

theorem keywordInv_foldl :
    ∀ (ops : List KeywordOp) (l : List String),
      KeywordInv l → KeywordInv (ops.foldl applyKeywordOp l) := by
  intro ops
  induction ops with
  | nil => exact fun l h => h
  | cons op t ih =>
    intro l h
    exact ih (applyKeywordOp l op) (keywordInv_step l op h)

/-! ## The claims -/

/-- C10: for every configuration, `match_text` returns false and
`get_match_details` returns matched = false with an empty keyword list
whenever the configured keyword list is empty or the input text is empty,
regardless of logic mode and flags (lines 102-103 and 148-149). -/
theorem c10_empty_guard (oracle : RegexOracle) (m : AdvancedSearchModel)
    (text : String) (h : m.keywords = [] ∨ text = "") :
    match_text oracle m text = false ∧
    (get_match_details m text).matched = false ∧
    (get_match_details m text).keywords = [] := by
  rcases h with h | h <;>
    refine ⟨?_, ?_, ?_⟩ <;> simp [match_text, get_match_details, h]

/-- Witness for C10 at a configuration with no keywords. -/
theorem c10_empty_guard_witness :
    match_text noRe cfgEmpty "anything" = false ∧
    (get_match_details cfgEmpty "anything").matched = false ∧
    (get_match_details cfgEmpty "anything").keywords = [] :=
  c10_empty_guard noRe cfgEmpty "anything" (Or.inl rfl)

/-- C9: the shared highlight list is never mutated element-by-element: a
cycle assembles the full box list locally, its result does not depend on
the previously published list, and the only shared-state operation it
performs is the single wholesale replacement of lines 1534-1537. -/
theorem c9_wholesale_publish (oracle : RegexOracle)
    (capture : CaptureRecognize) (m : AdvancedSearchModel)
    (scalePercent monitorCount : Nat)
    (regions : List (Nat × Option Region)) (s s' : List Box) :
    workerCycle oracle capture m scalePercent monitorCount regions s =
      workerCycle oracle capture m scalePercent monitorCount regions s' ∧
    (workerCycle oracle capture m scalePercent monitorCount regions s).2 =
      [SharedOp.replaceAll
        (workerCycle oracle capture m scalePercent monitorCount regions s).1] ∧
    ∀ i b, SharedOp.setElem i b ∉
      (workerCycle oracle capture m scalePercent monitorCount regions s).2 := by
  refine ⟨rfl, rfl, ?_⟩
  intro i b hmem
  simp [workerCycle] at hmem

/-- C8: after any sequence of `add_keyword`, `remove_keyword` and
`clear_keywords` calls the keyword list has no duplicates and no entries
that are empty after stripping; and one `add_keyword` call leaves the list
unchanged on a blank or already-present (stripped) keyword, else appends
the stripped keyword at the end, preserving insertion order. -/
theorem c8_keyword_list_invariants :
    (∀ ops : List KeywordOp,
      (applyKeywordOps ops).Nodup ∧
      ∀ k ∈ applyKeywordOps ops, pyStrip k ≠ "") ∧
    (∀ (l : List String) (k : String),
      add_keyword l k =
        if pyStrip k = "" ∨ pyStrip k ∈ l then l else l ++ [pyStrip k]) := by
  constructor
  · intro ops
    exact keywordInv_foldl ops [] ⟨List.nodup_nil, by simp⟩
  · intro l k
    unfold add_keyword
    by_cases h1 : pyStrip k = "" ∨ pyStrip k ∈ l
    · rw [if_pos h1, if_neg]
      intro hg
      rcases h1 with h | h
      exacts [hg.1 h, hg.2 h]
    · push_neg at h1
      rw [if_pos h1, if_neg]
      simp [h1.1, h1.2]

/-- C3: a per-region capture/recognition failure is caught and only skips
that region for the cycle: the cycle's box list is the one the same cycle
computes without the failing region, so the remaining regions are still
processed and published. -/
theorem c3_partial_failure_isolation (oracle : RegexOracle)
    (capture : CaptureRecognize) (m : AdvancedSearchModel)
    (scalePercent monitorCount : Nat)
    (pre post : List (Nat × Option Region)) (idx : Nat) (region : Region)
    (msg : String) (hfail : capture idx region = Except.error msg) :
    runCycle oracle capture m scalePercent monitorCount
        (pre ++ (idx, some region) :: post) =
      runCycle oracle capture m scalePercent monitorCount (pre ++ post) := by
  rw [runCycle_eq_flatten, runCycle_eq_flatten]
  have hzero : processRegion oracle capture m scalePercent monitorCount
      (idx, some region) = [] := by
    simp [processRegion, hfail]
  simp [List.map_append, hzero]

/-- Witness for C3: two configured regions, the capture of monitor 1 fails
deterministically, and the cycle still yields exactly the box derived from
monitor 2's region. -/
theorem c3_partial_failure_witness :
    runCycle noRe capErr cfgApple 100 2
        ([] ++ (1, some regDemo) :: [(2, some regDemo)]) =
      runCycle noRe capErr cfgApple 100 2 ([] ++ [(2, some regDemo)]) ∧
    runCycle noRe capErr cfgApple 100 2 ([] ++ [(2, some regDemo)]) =
      [⟨110, 60, 30, 12, 2, 0⟩] :=
  ⟨c3_partial_failure_isolation noRe capErr cfgApple 100 2 []
      [(2, some regDemo)] 1 regDemo "CaptureFailure" rfl,
    by decide⟩

/-- C4: the published global coordinate of a highlight box is
monitor origin + region offset + recognizer-local offset divided by the
scale factor (truncated), per axis; with scale 1.0 (spin value 100),
region (100, 50) and local (10, 10) the global point is origin + (110, 60),
and with scale 0.5 (spin value 50) the local (10, 10) maps to
origin + region + (20, 20). -/
theorem c4_coordinate_mapping :
    (∀ (oracle : RegexOracle) (m : AdvancedSearchModel) (scalePercent : Nat)
        (region : Region) (idx : Nat) (frag : Fragment) (b : Box)
        (mon : Monitor),
        fragmentBox oracle m scalePercent region idx frag = some b →
        overlayGlobalX mon b =
          mon.left + region.x + pyDivByScale frag.left scalePercent ∧
        overlayGlobalY mon b =
          mon.top + region.y + pyDivByScale frag.top scalePercent) ∧
    (∀ mon : Monitor,
        fragmentBox noRe cfgApple 100 regDemo 1 fragApple =
          some ⟨110, 60, 30, 12, 1, 0⟩ ∧
        overlayGlobalX mon ⟨110, 60, 30, 12, 1, 0⟩ = mon.left + (100 + 10) ∧
        overlayGlobalY mon ⟨110, 60, 30, 12, 1, 0⟩ = mon.top + (50 + 10)) ∧
    (∀ mon : Monitor,
        fragmentBox noRe cfgApple 50 regDemo 1 fragApple =
          some ⟨120, 70, 60, 24, 1, 0⟩ ∧
        overlayGlobalX mon ⟨120, 70, 60, 24, 1, 0⟩ = mon.left + (100 + 20) ∧
        overlayGlobalY mon ⟨120, 70, 60, 24, 1, 0⟩ = mon.top + (50 + 20)) := by
  refine ⟨?_, ?_, ?_⟩
  · intro oracle m sp region idx frag b mon h
    simp only [fragmentBox] at h
    split_ifs at h
    rw [Option.some.injEq] at h
    subst h
    constructor
    · show pyDivByScale frag.left sp + region.x + mon.left = _
      ring
    · show pyDivByScale frag.top sp + region.y + mon.top = _
      ring
  · intro mon
    refine ⟨by decide, ?_, ?_⟩
    · show (110 : Int) + mon.left = mon.left + (100 + 10)
      ring
    · show (60 : Int) + mon.top = mon.top + (50 + 10)
      ring
  · intro mon
    refine ⟨by decide, ?_, ?_⟩
    · show (120 : Int) + mon.left = mon.left + (100 + 20)
      ring
    · show (70 : Int) + mon.top = mon.top + (50 + 20)
      ring

/-- Counterexample to C1 as stated: with `whole_word` set (a literal-mode
configuration the claim quantifies over), the claim's own per-keyword rule
(plain substring containment) says keyword `"cat"` matches `"category"`,
but `match_text` returns false: the rule of lines 127-138 is further
constrained by `whole_word`. -/
theorem c1_counterexample :
    cfgWholeWord.use_regex = false ∧
    c1ClaimVerdict cfgWholeWord "category" = true ∧
    match_text noRe cfgWholeWord "category" = false :=
  ⟨rfl, by decide, by decide⟩

/-- C1 (amended): in literal mode, on a nonempty keyword list and nonempty
text, `match_text` is true iff at least one (OR) respectively every (AND)
keyword individually matches, where the per-keyword rule is the one of
lines 124-138: substring containment when `partial_match` is set — further
restricted to whole-token equality when `whole_word` is also set — else
exact equality, under the configured case sensitivity
(`keywordLiteralMatch`). -/
theorem c1_literal_logic_amended (oracle : RegexOracle)
    (m : AdvancedSearchModel) (text : String) (hreg : m.use_regex = false)
    (hks : m.keywords ≠ []) (htx : text ≠ "") :
    (m.logic = "OR" →
      (match_text oracle m text = true ↔
        ∃ k ∈ m.keywords, keywordLiteralMatch m text k = true)) ∧
    (m.logic = "AND" →
      (match_text oracle m text = true ↔
        ∀ k ∈ m.keywords, keywordLiteralMatch m text k = true)) := by
  have hcond : ¬(m.keywords = [] ∨ text = "") := by
    intro hc
    rcases hc with hc | hc
    exacts [hks hc, htx hc]
  constructor
  · intro hor
    rw [show match_text oracle m text = literalCombine m text by
      simp [match_text, hcond, hreg]]
    rw [show literalCombine m text =
        m.keywords.any (fun k => keywordLiteralMatch m text k) by
      simp [literalCombine, hor, any_map_id]]
    exact List.any_eq_true
  · intro hand
    have hnor : ¬ m.logic = "OR" := by rw [hand]; decide
    rw [show match_text oracle m text = literalCombine m text by
      simp [match_text, hcond, hreg]]
    rw [show literalCombine m text =
        m.keywords.all (fun k => keywordLiteralMatch m text k) by
      simp [literalCombine, hnor, all_map_id]]
    exact List.all_eq_true

/-- Witness for C1 (amended) at the spec's end-to-end OR scenario:
keywords apple/banana match "I ate an apple today" through the keyword
"apple". -/
theorem c1_literal_logic_witness :
    match_text noRe cfgFruit "I ate an apple today" = true :=
  ((c1_literal_logic_amended noRe cfgFruit "I ate an apple today" rfl
      (by decide) (by decide)).1 rfl).mpr
    ⟨"apple", by decide, by decide⟩

/-- Counterexample to C5 as stated: with `whole_word` set but
`partial_match` clear, keyword `"cat"` equals a whole token of
`"a cat ran"` yet `match_text` returns false — the whole-word rule only
applies inside the `partial_match` branch (lines 127-136), and without it
the keyword must equal the entire text. -/
theorem c5_counterexample :
    cfgWholeWordOnly.whole_word = true ∧
    (pyWords (pyLower "a cat ran")).contains (pyLower "cat") = true ∧
    match_text noRe cfgWholeWordOnly "a cat ran" = false :=
  ⟨rfl, by decide, by decide⟩

/-- C5 (amended): with `whole_word` and `partial_match` both set, a keyword
matches exactly when its case-folded form equals one whole token of the
case-folded text, tokenized on word boundaries; in particular "cat" does
not match "category" but does match "a cat ran". -/
theorem c5_whole_word_amended :
    (∀ (cs ur : Bool) (ks : List String) (lg text keyword : String),
      keywordLiteralMatch ⟨ks, lg, cs, true, ur, true⟩ text keyword = true ↔
        ∃ w ∈ pyWords (if cs then text else pyLower text),
          (if cs then keyword else pyLower keyword) =
            (if cs then w else pyLower w)) ∧
    match_text noRe cfgWholeWord "category" = false ∧
    match_text noRe cfgWholeWord "a cat ran" = true := by
  refine ⟨?_, by decide, by decide⟩
  intro cs ur ks lg text keyword
  simp only [keywordLiteralMatch, if_true, List.any_eq_true, beq_iff_eq]

/-- Counterexample to C6 as stated: in regex mode with OR logic the pattern
`"a+b"` matches `"aab"` (so `match_text` is true), but `get_match_details`
— which never consults `use_regex` — reports no matched keywords and
matched = false, so the matching pattern is not accumulated. -/
theorem c6_counterexample :
    cfgRegexOr.use_regex = true ∧ cfgRegexOr.logic = "OR" ∧
    match_text sampleRe cfgRegexOr "aab" = true ∧
    get_match_details cfgRegexOr "aab" = ⟨false, [], some "aab"⟩ :=
  ⟨rfl, rfl, by decide, by decide⟩

/-- C6 (amended): `get_match_details` evaluates every keyword by the
literal rule regardless of `use_regex`; with OR logic it accumulates,
without short-circuiting, every keyword that literally matches (in
configuration order), and its matched flag is true iff at least one
does. -/
theorem c6_details_accumulation_amended (m : AdvancedSearchModel)
    (text : String) (hor : m.logic = "OR") (hks : m.keywords ≠ [])
    (htx : text ≠ "") :
    (get_match_details m text).keywords =
      m.keywords.filter (fun k => keywordLiteralMatch m text k) ∧
    (get_match_details m text).matched =
      m.keywords.any (fun k => keywordLiteralMatch m text k) := by
  have hcond : ¬(m.keywords = [] ∨ text = "") := by
    intro hc
    rcases hc with hc | hc
    exacts [hks hc, htx hc]
  have hfold := foldl_detailsStep_or m text hor m.keywords
    ⟨false, [], some text⟩
  have hnand : ¬(m.logic = "AND" ∧
      (m.keywords.foldl (detailsStep m text)
        ⟨false, [], some text⟩).keywords.length < m.keywords.length) := by
    intro hc
    have := hc.1
    rw [hor] at this
    exact absurd this (by decide)
  simp only [get_match_details, if_neg hcond]
  rw [if_neg hnand, hfold]
  constructor <;> simp

/-- Witness for C6 (amended) at a three-keyword regex-mode configuration:
on "aab" the details accumulate both literally-matching keywords. -/
theorem c6_details_accumulation_witness :
    (get_match_details cfgABC "aab").keywords =
      cfgABC.keywords.filter (fun k => keywordLiteralMatch cfgABC "aab" k) ∧
    (get_match_details cfgABC "aab").matched =
      cfgABC.keywords.any (fun k => keywordLiteralMatch cfgABC "aab" k) :=
  c6_details_accumulation_amended cfgABC "aab" rfl (by decide) (by decide)

/-- Counterexample to C2 as stated: keywords `["(", "a+b"]` in OR regex
mode on text `"aab"`: the claim's per-pattern rule keeps the valid
pattern's regex match (verdict true), but `match_text` returns false — the
`re.error` raised for `"("` aborts the whole regex pass (the `try` wraps
the loop, lines 109-120) and every keyword, including the valid pattern,
is re-evaluated literally. -/
theorem c2_counterexample :
    cfgBadThenGood.use_regex = true ∧
    sampleRe "(" "aab" false = none ∧
    sampleRe "a+b" "aab" false = some true ∧
    c2ClaimVerdict sampleRe cfgBadThenGood "aab" = true ∧
    match_text sampleRe cfgBadThenGood "aab" = false :=
  ⟨rfl, rfl, by decide, by decide, by decide⟩

/-- C2 (amended): in regex mode, when the pattern loop reaches a malformed
pattern before any early return (every earlier pattern is valid and
undecisive), the whole regex pass is abandoned and the engine falls back to
literal substring/whole-word matching for every keyword of the
configuration — not just for the malformed one — so regex matches of valid
patterns situated after the malformed one can be suppressed. -/
theorem c2_malformed_fallback_amended (oracle : RegexOracle)
    (m : AdvancedSearchModel) (text : String) (pre post : List String)
    (bad : String) (hreg : m.use_regex = true) (htx : text ≠ "")
    (hkeys : m.keywords = pre ++ bad :: post)
    (hbad : oracle bad text m.case_sensitive = none)
    (hpre : ∀ p ∈ pre, ∃ b, oracle p text m.case_sensitive = some b ∧
        (m.logic = "OR" → b = false) ∧ (m.logic = "AND" → b = true)) :
    match_text oracle m text = literalCombine m text := by
  have hks : m.keywords ≠ [] := by
    rw [hkeys]
    simp
  have hcond : ¬(m.keywords = [] ∨ text = "") := by
    intro hc
    rcases hc with hc | hc
    exacts [hks hc, htx hc]
  have hloop : regexPassLoop oracle m text m.keywords = none := by
    rw [hkeys]
    exact regexPassLoop_reaches_none oracle m text post bad hbad pre hpre
  simp [match_text, hcond, hreg, hloop]

/-- Witness for C2 (amended) at the malformed-first configuration: the
verdict on "aab" is the all-literal fallback. -/
theorem c2_malformed_fallback_witness :
    match_text sampleRe cfgBadThenGood "aab" =
      literalCombine cfgBadThenGood "aab" :=
  c2_malformed_fallback_amended sampleRe cfgBadThenGood "aab" [] ["a+b"] "("
    rfl (by decide) rfl rfl (by simp)

/-- Counterexample to C7 as stated: a 50x30 drag (at the minimum size, so
the claim says it is accepted) whose centre lies on no registered monitor
is still rejected by `mouseReleaseEvent` — rejection is not determined by
the size test alone. -/
theorem c7_counterexample :
    ¬(|(2000 : Int) - 2050| < 50 ∨ |(2000 : Int) - 2030| < 30) ∧
    selectRegion infoDemo 0 0 2000 2000 2050 2030 = none :=
  ⟨by decide, by decide⟩

/-- C7 (amended): a selection is rejected exactly when its width is below
50 or its height is below 30 (the inclusive-minimum test of line 345,
checked first), or, the size test passed, when `get_monitor_at_point`
finds no monitor (or index 0) at the selection's centre; at the boundary,
a 50x30 selection on a monitor is accepted and a 49-wide one is
rejected. -/
theorem c7_region_minimum_amended :
    (∀ (info : List (Nat × Monitor)) (wx wy sx sy ex ey : Int),
      (|sx - ex| < 50 ∨ |sy - ey| < 30 →
        selectRegion info wx wy sx sy ex ey = none) ∧
      (¬(|sx - ex| < 50 ∨ |sy - ey| < 30) →
        (selectRegion info wx wy sx sy ex ey = none ↔
          (get_monitor_at_point info wx wy
            (min sx ex + (|sx - ex|).tdiv 2)
            (min sy ey + (|sy - ey|).tdiv 2)).getD 0 = 0))) ∧
    selectRegion infoDemo 0 0 0 0 50 30 = some ((0, 0, 50, 30), 1) ∧
    selectRegion infoDemo 0 0 0 0 49 30 = none := by
  refine ⟨?_, by decide, by decide⟩
  intro info wx wy sx sy ex ey
  constructor
  · intro hsz
    simp [selectRegion, hsz]
  · intro hsz
    simp only [selectRegion, if_neg hsz]
    cases hm : get_monitor_at_point info wx wy
        (min sx ex + (|sx - ex|).tdiv 2) (min sy ey + (|sy - ey|).tdiv 2) with
    | none => simp
    | some monitor_idx =>
      by_cases hid : monitor_idx = 0
      · simp [hid]
      · obtain ⟨mon, hmon⟩ := findMonitor_of_found info monitor_idx wx wy _ _ hm
        simp [hid, hmon]

end ScreenTextHighlighter
